import Mathlib

/-!
# Verification of the PBIR PR-annotation scripts

A shallow embedding, in Lean 4, of the two core scripts of the repository:

* `scripts/build_guid_mapping.py` — the report-tree indexing pass
  (visual-descriptor extraction plus the directory walk), and
* `scripts/build_pr_comment.py` — the change correlator and the ASCII
  layout renderer.

JSON documents are modelled by the inductive type `JVal`; Python dictionary
and exception behaviour is modelled explicitly (`Except` for code paths that
can raise, `Option` for code paths wrapped in a catch-all handler).  Python
floats are modelled by `ℚ`: every finite IEEE-754 double is a rational, so a
property proved for all rationals covers every value float arithmetic can
produce; NaN and infinity (on which Python `round` raises) are outside the
model.  Python `round` is round-half-to-even, embedded as `pythonRound`.
-/

/-- A parsed JSON document, as returned by Python `json.loads`: objects are
insertion-ordered association lists (Python dicts cannot hold duplicate
keys). -/
inductive JVal where
  | null : JVal
  | bool (b : Bool) : JVal
  | num (q : ℚ) : JVal
  | str (s : String) : JVal
  | arr (xs : List JVal) : JVal
  | obj (kvs : List (String × JVal)) : JVal

/-- First value bound to `k` in an association list (Python dict lookup). -/
def lookupKV (kvs : List (String × JVal)) (k : String) : Option JVal :=
  match kvs with
  | [] => none
  | (k', v) :: rest => if k' = k then some v else lookupKV rest k

/-- Python truthiness of a JSON value: `None`, `False`, `0`, `""`, `[]` and
the empty dict are falsy, everything else is truthy. -/
def jtruthy : JVal → Bool
  | .null => false
  | .bool b => b
  | .num q => q != 0
  | .str s => s != ""
  | .arr xs => !xs.isEmpty
  | .obj kvs => !kvs.isEmpty

/-- Truthiness of a Python value that may be `None` (`Option JVal`). -/
def jtruthyO : Option JVal → Bool
  | none => false
  | some v => jtruthy v

/-- Python `str()` of a JSON value.  String, boolean and `None` cases are
exact.  Numbers are rendered from the rational (exact for JSON integers;
Python renders floats with a decimal point, which this model does not
reproduce).  Containers get a placeholder in place of Python's repr; no
theorem below evaluates `pyStr` on a container or a float-typed number. -/
def pyStr : JVal → String
  | .null => "None"
  | .bool b => if b then "True" else "False"
  | .num q => if q.den = 1 then toString q.num else toString q
  | .str s => s
  | .arr _ => "<list>"
  | .obj _ => "<dict>"

/-- Python `str()` of a value that may be `None`. -/
def pyStrO (o : Option JVal) : String :=
  match o with
  | none => "None"
  | some v => pyStr v

/-- Python `d.get(k)` (no default): returns `None` for a missing key, raises
`AttributeError` when the receiver is not a dict. -/
def pyGetOpt (v : JVal) (k : String) : Except String (Option JVal) :=
  match v with
  | .obj kvs => .ok (lookupKV kvs k)
  | _ => .error ("AttributeError: no attribute get, key " ++ k)

/-- Python `d.get(k, dflt)`: the default for a missing key, raises
`AttributeError` when the receiver is not a dict. -/
def pyGetD (v : JVal) (k : String) (dflt : JVal) : Except String JVal :=
  match v with
  | .obj kvs => .ok ((lookupKV kvs k).getD dflt)
  | _ => .error ("AttributeError: no attribute get, key " ++ k)

/-- Python `s.strip()`: drop leading and trailing whitespace.  Implemented
over the character list (Python also strips some further Unicode whitespace;
the repository's data is ASCII). -/
def pyStrip (s : String) : String :=
  String.mk (((s.data.dropWhile Char.isWhitespace).reverse.dropWhile
    Char.isWhitespace).reverse)

/-- Digits-to-number accumulator for `parseFloatString`. -/
def digitsToNat (l : List Char) : ℕ :=
  l.foldl (fun n c => n * 10 + (c.toNat - 48)) 0

/-- Python `float(s)` on a string: optional sign, decimal digits with an
optional fractional part.  (Exponents, `inf`/`nan` and underscores are
accepted by Python but unused by this repository's data and omitted.) -/
def parseFloatString (s : String) : Option ℚ :=
  let t := (pyStrip s).data
  let sign : ℚ × List Char :=
    match t with
    | '-' :: r => (-1, r)
    | '+' :: r => (1, r)
    | _ => (1, t)
  let intPart := sign.2.takeWhile Char.isDigit
  let rest := sign.2.dropWhile Char.isDigit
  match rest with
  | [] =>
      if intPart = [] then none
      else some (sign.1 * (digitsToNat intPart : ℚ))
  | '.' :: frac =>
      if frac.all Char.isDigit ∧ (intPart ≠ [] ∨ frac ≠ []) then
        some (sign.1 * ((digitsToNat intPart : ℚ) +
          (digitsToNat frac : ℚ) / ((10 : ℚ) ^ frac.length)))
      else none
  | _ => none

/-- Python `float(v)` on a parsed JSON value: numbers and booleans convert,
numeric strings parse, everything else raises (`TypeError`/`ValueError`). -/
def pyFloat (v : JVal) : Except String ℚ :=
  match v with
  | .num q => .ok q
  | .bool b => .ok (if b then 1 else 0)
  | .str s =>
      match parseFloatString s with
      | some q => .ok q
      | none => .error ("ValueError: could not convert string to float: " ++ s)
  | .null => .error "TypeError: float() argument is None"
  | .arr _ => .error "TypeError: float() argument is a list"
  | .obj _ => .error "TypeError: float() argument is a dict"

/-- Python `s or None` for a string `s`: the empty string is falsy. -/
def pyOrNone (s : String) : Option String :=
  if s = "" then none else some s

/-- `strip_literal_quotes` (build_guid_mapping.py:15-23): strip surrounding
whitespace, then one layer of single quotes when both ends carry one, then
strip again.  `string[0]`/`string[-1]`/`string[1:-1]` are taken on the
character list; the head/last defaults are never consulted under the
length-two guard. -/
def strip_literal_quotes (value : String) : String :=
  let string := pyStrip value
  if 2 ≤ string.data.length ∧ string.data.headD ' ' = '\'' ∧
      string.data.getLastD ' ' = '\'' then
    pyStrip (String.mk ((string.data.drop 1).dropLast))
  else string

/-- The nested lookup performed by `extract_title_text`
(build_guid_mapping.py:68-73):
`vobj["visual"]["visualContainerObjects"]["title"]`, the `isinstance(list)`
and non-emptiness check, `title_arr[0]["properties"]["text"]["expr"]`
`["Literal"]["Value"]`, and the final `isinstance(str)` check.  Every raised
`KeyError`/`TypeError`/`IndexError` is caught by the surrounding
`except Exception` and becomes `none`. -/
def title_literal (vobj : JVal) : Option String :=
  let idx : JVal → String → Option JVal := fun v k =>
    match v with
    | .obj kvs => lookupKV kvs k
    | _ => none
  match idx vobj "visual" with
  | none => none
  | some visual =>
    match idx visual "visualContainerObjects" with
    | none => none
    | some vco =>
      match idx vco "title" with
      | none => none
      | some titleArr =>
        match titleArr with
        | .arr (first :: _) =>
          match idx first "properties" with
          | none => none
          | some props =>
            match idx props "text" with
            | none => none
            | some text =>
              match idx text "expr" with
              | none => none
              | some expr =>
                match idx expr "Literal" with
                | none => none
                | some lit =>
                  match idx lit "Value" with
                  | some (.str s) => some s
                  | _ => none
        | _ => none

/-- `extract_title_text` (build_guid_mapping.py:62-80): resolve the nested
title literal, clean it with `strip_literal_quotes(...).strip()`, and return
`cleaned_title or None`; any failure on the way yields `None`. -/
def extract_title_text (vobj : JVal) : Option String :=
  match title_literal vobj with
  | none => none
  | some title => pyOrNone (pyStrip (strip_literal_quotes title))

/-- The lookup computed by the first try-block of `extract_visual_type`
(build_guid_mapping.py:44): Python
`vobj.get("visual", dict()).get("visualType")`. -/
def visual_visualType_lookup (vobj : JVal) : Except String (Option JVal) := do
  let visual ← pyGetD vobj "visual" (JVal.obj [])
  pyGetOpt visual "visualType"

/-- The lookup computed by the second try-block of `extract_visual_type`
(build_guid_mapping.py:51): Python
`vobj.get("visualGroup", dict()).get("displayName")`. -/
def visualGroup_displayName_lookup (vobj : JVal) : Except String (Option JVal) := do
  let visualGroup ← pyGetD vobj "visualGroup" (JVal.obj [])
  pyGetOpt visualGroup "displayName"

/-- `extract_visual_type` (build_guid_mapping.py:26-59), as the code actually
behaves.  The first try-block binds its lookup to the local `visual` but then
evaluates `isinstance(vt, str)` where `vt` is an undefined name; the
`NameError` (or any exception from the lookup itself) is swallowed by
`except Exception: pass`, so the block never returns.  The second block binds
`visualGroup` but tests the undefined `vg`, with the same outcome.  Every
call therefore falls through to the `ValueError` naming the file. -/
def extract_visual_type (vobj : JVal) (visual_path : String) : Except String String :=
  let _visual := visual_visualType_lookup vobj
  let _visualGroup := visualGroup_displayName_lookup vobj
  Except.error
    ("Unable to determine visual type. " ++
     "Expected either visual.visualType or visualGroup.displayName. " ++
     "File: " ++ visual_path)

/-- `extract_xywh_from_position` (build_guid_mapping.py:83-100):
`position = vobj.get("position", dict()) or dict()`, then
`float(position.get(field, default))` for the four fields with defaults
`x=0, y=0, width=1, height=1`.  There is no exception handler: a non-dict
receiver or a non-numeric field value propagates as an error. -/
def extract_xywh_from_position (vobj : JVal) : Except String (ℚ × ℚ × ℚ × ℚ) := do
  let p ← pyGetD vobj "position" (JVal.obj [])
  let position := if jtruthy p then p else JVal.obj []
  let x ← pyFloat (← pyGetD position "x" (JVal.num 0))
  let y ← pyFloat (← pyGetD position "y" (JVal.num 0))
  let width ← pyFloat (← pyGetD position "width" (JVal.num 1))
  let height ← pyFloat (← pyGetD position "height" (JVal.num 1))
  return (x, y, width, height)

/-- A `Visual` record of the persisted mapping artifact
(build_guid_mapping.py:169-179). -/
structure Visual where
  id : String
  name : String
  visualType : String
  titleText : Option String
  path : String
  x : ℚ
  y : ℚ
  width : ℚ
  height : ℚ

/-- A `Page` record of the persisted mapping artifact
(build_guid_mapping.py:148-154). -/
structure Page where
  id : String
  name : String
  report : String
  path : String
  visuals : List Visual

/-- One subdirectory of a page's `visuals` directory, as the directory
provider presents it: its name, whether `visual.json` is a file there, and
the result of `read_json` on it (`none` models an unreadable/unparsable
file). -/
structure VisualDir where
  name : String
  visualJsonIsFile : Bool
  visualDoc : Option JVal

/-- One subdirectory of a report's `definition/pages` directory. -/
structure PageDir where
  name : String
  pageJsonIsFile : Bool
  pageDoc : Option JVal
  visualsDirExists : Bool
  visualDirs : List VisualDir

/-- One `*.Report` directory: the path components of the scan root, the
report directory's path components relative to that root (its own name
last), whether `definition/pages` is a directory, and the page
subdirectories in the order the directory provider enumerates them. -/
structure ReportDir where
  rootParts : List String
  relParts : List String
  pagesDirExists : Bool
  pageDirs : List PageDir

/-- Python string comparison is lexicographic on code points; it is embedded
as the lexicographic `LinearOrder` on the character list `s.data` (the
built-in `String` order does not reduce in the kernel). -/
def strKey (s : String) : List Char :=
  s.data

/-- Key-based comparison used to model Python `sorted` over directory
entries (entries of one directory are compared by name, which agrees with
`pathlib`'s full-string path order because the parent prefix is shared). -/
def keyLE {α β : Type _} [LinearOrder β] (key : α → β) (a b : α) : Prop :=
  key a ≤ key b

instance {α β : Type _} [LinearOrder β] (key : α → β) : DecidableRel (keyLE key) :=
  fun a b => inferInstanceAs (Decidable (key a ≤ key b))

instance {α β : Type _} [LinearOrder β] (key : α → β) : IsTotal α (keyLE key) :=
  ⟨fun a b => le_total (key a) (key b)⟩

instance {α β : Type _} [LinearOrder β] (key : α → β) : IsTrans α (keyLE key) :=
  ⟨fun _ _ _ h₁ h₂ => le_trans h₁ h₂⟩

/-- Python `sorted(l, key=key)`, modelled by stable insertion sort. -/
def sortByKey {α β : Type _} [LinearOrder β] (key : α → β) (l : List α) : List α :=
  l.insertionSort (keyLE key)

/-- Python `str.lower()` over the character list. -/
def pyLower (s : String) : String :=
  String.mk (s.data.map Char.toLower)

/-- `under_bookmarks` (build_guid_mapping.py:120-124): some path component
equals `bookmarks` case-insensitively. -/
def under_bookmarks (parts : List String) : Bool :=
  parts.any (fun part => pyLower part == "bookmarks")

/-- `get_report_name` (build_guid_mapping.py:110-117): drop a trailing
`.Report` from the directory name. -/
def get_report_name (name : String) : String :=
  if ".Report".data.isSuffixOf name.data then
    String.mk (name.data.take (name.data.length - 7))
  else name

/-- Join path components with forward slashes; models both
`str(p.relative_to(root)).replace(chr(92), "/")` (the parts are relative)
and POSIX `str(p)` (the parts are absolute). -/
def joinPath (parts : List String) : String :=
  String.intercalate "/" parts

/-- Path components, relative to the scan root, of a page's `page.json`
(`rel` being the report directory's components relative to the root). -/
def pageJsonRelParts (rel : List String) (pdName : String) : List String :=
  rel ++ ["definition", "pages", pdName, "page.json"]

/-- All path components of a page's `page.json` (scan root included), the
list `Path.parts` that `under_bookmarks` inspects. -/
def pageJsonAllParts (root rel : List String) (pdName : String) : List String :=
  root ++ pageJsonRelParts rel pdName

/-- Path components, relative to the scan root, of a visual's
`visual.json`. -/
def visualJsonRelParts (rel : List String) (pdName vdName : String) :
    List String :=
  rel ++ ["definition", "pages", pdName, "visuals", vdName, "visual.json"]

/-- All path components of a visual's `visual.json` (scan root included). -/
def visualJsonAllParts (root rel : List String) (pdName vdName : String) :
    List String :=
  root ++ visualJsonRelParts rel pdName vdName

/-- Python `read_json(path) or` the empty dict: a document that failed to
read/parse (`None`) and a successfully parsed falsy document (`null`, `0`,
`""`, `[]`, `false`, empty dict) are both replaced by the empty dict;
any truthy document is kept. -/
def readJsonOrEmpty (o : Option JVal) : JVal :=
  match o with
  | none => JVal.obj []
  | some d => if jtruthy d then d else JVal.obj []

/-- The visuals loop of `collect_pages_for_report`
(build_guid_mapping.py:158-180), over the page's visual subdirectories in
the order Python iterates them (already sorted by the caller).  Skipped
entries (`visual.json` missing, or under a `bookmarks` segment) contribute
nothing; otherwise the visual document (`read_json(...) or` empty dict) is
run through the extractors; errors propagate, as in Python, out of the whole
collection. -/
def collect_visuals (root rel : List String) (pdName : String) :
    List VisualDir → Except String (List Visual)
  | [] => .ok []
  | vd :: rest =>
    if !vd.visualJsonIsFile ||
        under_bookmarks (visualJsonAllParts root rel pdName vd.name) then
      collect_visuals root rel pdName rest
    else do
      let vobj := readJsonOrEmpty vd.visualDoc
      let n ← pyGetOpt vobj "name"
      let i ← pyGetOpt vobj "id"
      let vis_id := if jtruthyO n then pyStrO n
        else if jtruthyO i then pyStrO i else vd.name
      let vis_name := if jtruthyO n then pyStrO n else vd.name
      let xywh ← extract_xywh_from_position vobj
      let visual_type ← extract_visual_type vobj
        (joinPath (visualJsonAllParts root rel pdName vd.name))
      let title_text := extract_title_text vobj
      let rest' ← collect_visuals root rel pdName rest
      return ({ id := vis_id, name := vis_name, visualType := visual_type,
                titleText := title_text,
                path := joinPath (visualJsonRelParts rel pdName vd.name),
                x := xywh.1, y := xywh.2.1, width := xywh.2.2.1,
                height := xywh.2.2.2 } : Visual) :: rest'

/-- `page_id = str(pobj.get("name") or page_dir.name)`
(build_guid_mapping.py:145): the declared name when truthy, else the page
directory name. -/
def page_id_of (dirName : String) (n : Option JVal) : String :=
  if jtruthyO n then pyStrO n else dirName

/-- `page_name = str(pobj.get("displayName") or page_dir.name or page_id)`
(build_guid_mapping.py:146): the declared display name when truthy, else the
page directory name when non-empty, else the page id. -/
def page_name_of (dirName : String) (page_id : String) (dn : Option JVal) : String :=
  if jtruthyO dn then pyStrO dn
  else if dirName ≠ "" then dirName else page_id

/-- The page loop of `collect_pages_for_report`
(build_guid_mapping.py:137-187), over the report's page subdirectories in
the order Python iterates them (already sorted by the caller).  The page
document is `read_json(...) or` the empty dict; `id` is the declared `name`
falling back to the directory name; `name` is the declared `displayName`
falling back to the directory name, then to `id`. -/
def collect_pages_aux (root rel : List String) : List PageDir → Except String (List Page)
  | [] => .ok []
  | pd :: rest =>
    if !pd.pageJsonIsFile || under_bookmarks (pageJsonAllParts root rel pd.name) then
      collect_pages_aux root rel rest
    else do
      let pobj := readJsonOrEmpty pd.pageDoc
      let n ← pyGetOpt pobj "name"
      let dn ← pyGetOpt pobj "displayName"
      let page_id := page_id_of pd.name n
      let page_name := page_name_of pd.name page_id dn
      let visuals ← if pd.visualsDirExists then
          collect_visuals root rel pd.name
            (sortByKey (fun vd => strKey vd.name) pd.visualDirs)
        else pure []
      let rest' ← collect_pages_aux root rel rest
      return ({ id := page_id, name := page_name,
                report := get_report_name (rel.getLastD ""),
                path := joinPath (pageJsonRelParts rel pd.name),
                visuals := visuals } : Page) :: rest'

/-- `collect_pages_for_report` (build_guid_mapping.py:127-189): empty when
`definition/pages` is not a directory, otherwise the page loop over
`sorted(pages_root.iterdir())`. -/
def collect_pages_for_report (rd : ReportDir) : Except String (List Page) :=
  if !rd.pagesDirExists then .ok []
  else collect_pages_aux rd.rootParts rd.relParts
    (sortByKey (fun pd => strKey pd.name) rd.pageDirs)

/-- One file-system entry whose name matched `rglob("*.Report")`:
its path components (from the scan root) and whether it is a directory. -/
structure FsEntry where
  parts : List String
  isDir : Bool

/-- `find_report_dirs` (build_guid_mapping.py:103-107):
`sorted(p for p in root.rglob("*.Report") if p.is_dir())` — the glob
pattern keeps entries whose last component ends in `.Report`; `sorted`
compares `pathlib` paths, i.e. the joined path strings. -/
def find_report_dirs (entries : List FsEntry) : List FsEntry :=
  sortByKey (fun e => strKey (joinPath e.parts))
    (entries.filter (fun e =>
      (".Report".data.isSuffixOf (e.parts.getLastD "").data) && e.isDir))

/-- Association-list lookup (Python dict access by key). -/
def alookup {γ : Type _} (l : List (String × γ)) (k : String) : Option γ :=
  match l with
  | [] => none
  | (k', v) :: rest => if k' = k then some v else alookup rest k

/-- Python dict assignment `d[k] = v`: overwrites the value at an existing
key keeping its position, appends a new key at the end. -/
def insertOverwrite {γ : Type _} (k : String) (v : γ) :
    List (String × γ) → List (String × γ)
  | [] => [(k, v)]
  | (k', v') :: rest =>
    if k' = k then (k', v) :: rest else (k', v') :: insertOverwrite k v rest

/-- Python `d.setdefault(k, dflt)` immediately followed by a mutation `f`
of the entry at `k`. -/
def upsertWith {γ : Type _} (k : String) (dflt : γ) (f : γ → γ) :
    List (String × γ) → List (String × γ)
  | [] => [(k, f dflt)]
  | (k', g) :: rest =>
    if k' = k then (k', f g) :: rest else (k', g) :: upsertWith k dflt f rest

/-- Python `p.replace(backslash, "/")`: one-character replacement over the
character list. -/
def normSlashes (p : String) : String :=
  String.mk (p.data.map (fun c => if c = '\\' then '/' else c))

/-- `page_key` (build_pr_comment.py:71-73): the page's `id`, falling back to
`report/name` when the id is falsy. -/
def page_key (page : Page) : String :=
  if page.id ≠ "" then page.id else page.report ++ "/" ++ page.name

/-- One `per_page` aggregation record of `main`
(build_pr_comment.py:230-242). -/
structure ChangeGroup where
  page : Page
  page_changed : Bool
  page_path : String
  visuals : List (String × Visual)

/-- `page_by_path` (build_pr_comment.py:212-215): pages keyed by
slash-normalized definition path; falsy (empty) paths are skipped. -/
def build_page_by_path (pages : List Page) : List (String × Page) :=
  pages.foldl
    (fun m page =>
      if page.path ≠ "" then insertOverwrite (normSlashes page.path) page m else m)
    []

/-- `visuals_by_path` (build_pr_comment.py:216-219): `(page, visual)` pairs
keyed by the visual's slash-normalized definition path. -/
def build_visuals_by_path (pages : List Page) : List (String × (Page × Visual)) :=
  pages.foldl
    (fun m page =>
      page.visuals.foldl
        (fun m vis =>
          if vis.path ≠ "" then
            insertOverwrite (normSlashes vis.path) (page, vis) m
          else m)
        m)
    []

/-- The body of the per-changed-path loop of `main`
(build_pr_comment.py:226-242): a path matching a page definition marks its
group `page_changed`; a path matching a visual definition appends
`(path, visual)` to the owning page's group; other paths change nothing. -/
def correlate_step (page_by_path : List (String × Page))
    (visuals_by_path : List (String × (Page × Visual)))
    (per_page : List (String × ChangeGroup)) (path : String) :
    List (String × ChangeGroup) :=
  let per_page :=
    match alookup page_by_path path with
    | some page =>
        upsertWith (page_key page)
          { page := page, page_changed := false, page_path := path, visuals := [] }
          (fun g => { g with page_changed := true }) per_page
    | none => per_page
  match alookup visuals_by_path path with
  | some pv =>
      upsertWith (page_key pv.1)
        { page := pv.1, page_changed := false, page_path := pv.1.path, visuals := [] }
        (fun g => { g with visuals := g.visuals ++ [(path, pv.2)] }) per_page
  | none => per_page

/-- The change-correlation pass of `main` (build_pr_comment.py:209-242):
build both path maps from the mapping's pages, normalize the changed paths,
and fold the per-path loop into the `per_page` grouping. -/
def correlate (pages : List Page) (changed : List String) :
    List (String × ChangeGroup) :=
  (changed.map normSlashes).foldl
    (correlate_step (build_page_by_path pages) (build_visuals_by_path pages)) []

/-- Python `round()` (as applied to floats): round half to even. -/
def pythonRound (q : ℚ) : ℤ :=
  let f := ⌊q⌋
  let r := q - (f : ℚ)
  if r < 1/2 then f
  else if 1/2 < r then f + 1
  else if f % 2 = 0 then f else f + 1

/-- Python `max(lo, min(hi, v))`. -/
def clampInt (lo hi v : ℤ) : ℤ :=
  max lo (min hi v)

/-- The per-visual coordinate pipeline of `ascii_layout`
(build_pr_comment.py:110-127): scale, round, clamp into the grid, then force
a minimum one-cell span when a side collapsed.  Returns
`(left, top, right, bottom)`. -/
def mapRect (cols rows : ℕ) (sx sy x y w h : ℚ) : ℤ × ℤ × ℤ × ℤ :=
  let left := pythonRound (x * sx)
  let top := pythonRound (y * sy)
  let right := pythonRound ((x + w) * sx)
  let bottom := pythonRound ((y + h) * sy)
  let left := clampInt 0 ((cols : ℤ) - 1) left
  let right := clampInt 0 ((cols : ℤ) - 1) right
  let top := clampInt 0 ((rows : ℤ) - 1) top
  let bottom := clampInt 0 ((rows : ℤ) - 1) bottom
  let right := if right ≤ left then min ((cols : ℤ) - 1) (left + 1) else right
  let bottom := if bottom ≤ top then min ((rows : ℤ) - 1) (top + 1) else bottom
  (left, top, right, bottom)

/-- The rectangle data `ascii_layout` collects per visual
(build_pr_comment.py:92-97): the 1-based index and the float rectangle read
from the visual record. -/
structure XYWH where
  idx : ℕ
  x : ℚ
  y : ℚ
  w : ℚ
  h : ℚ

/-- The extent accumulation of `ascii_layout` (build_pr_comment.py:88-99):
`max_right`/`max_bottom` start at `0.0` and take the maximum of `x+w`
resp. `y+h` over all visuals. -/
def layout_extents (xywh : List XYWH) : ℚ × ℚ :=
  (xywh.foldl (fun m e => max m (e.x + e.w)) 0,
   xywh.foldl (fun m e => max m (e.y + e.h)) 0)

/-- The degenerate-extent replacement of `ascii_layout`
(build_pr_comment.py:101-102): when either extent is nonpositive, both are
replaced by `1.0`. -/
def adjust_extents (p : ℚ × ℚ) : ℚ × ℚ :=
  if p.1 ≤ 0 ∨ p.2 ≤ 0 then (1, 1) else p

/-- The renderer's mutable character grid: a list of rows. -/
abbrev CharGrid := List (List Char)

/-- Python `grid[r][c] = ch`.  `none` signals an access outside
`[0, rows) × [0, cols)`; the renderer is proved never to produce one (Python
would raise `IndexError` above the row/column count and would wrap a
negative index around, neither of which a clamped coordinate can reach). -/
def setCell (g : CharGrid) (r c : ℤ) (ch : Char) : Option CharGrid :=
  if 0 ≤ r ∧ r < (g.length : ℤ) then
    match g.get? r.toNat with
    | some row =>
        if 0 ≤ c ∧ c < (row.length : ℤ) then
          some (g.set r.toNat (row.set c.toNat ch))
        else none
    | none => none
  else none

/-- Python `range(a, b)` over integers. -/
def intRange (a b : ℤ) : List ℤ :=
  (List.range (b - a).toNat).map (fun i => a + Int.ofNat i)

/-- The drawing body of `ascii_layout` for one visual
(build_pr_comment.py:129-158): corners, horizontal and vertical edges, then
the centered label, whose character writes are guarded by an explicit bounds
check. -/
def drawVisual (cols rows : ℕ) (g : CharGrid)
    (idx : ℕ) (left top right bottom : ℤ) : Option CharGrid := do
  let g ← setCell g top left '+'
  let g ← setCell g top right '+'
  let g ← setCell g bottom left '+'
  let g ← setCell g bottom right '+'
  let g ← (intRange (left + 1) right).foldlM
    (fun g c => do
      let g ← setCell g top c '-'
      setCell g bottom c '-') g
  let g ← (intRange (top + 1) bottom).foldlM
    (fun g r => do
      let g ← setCell g r left '|'
      setCell g r right '|') g
  let label := toString idx
  let interior_width := max 1 (right - left - 1)
  let interior_height := max 1 (bottom - top - 1)
  let center_row := top + 1 + Int.fdiv interior_height 2
  let center_col := left + 1 + Int.fdiv (interior_width - (label.length : ℤ)) 2
  let center_row := max (top + 1) (min (bottom - 1) center_row)
  let center_col := max (left + 1) (min (right - (label.length : ℤ)) center_col)
  label.data.enum.foldlM
    (fun g jch =>
      let c := center_col + (jch.1 : ℤ)
      if 0 ≤ center_row ∧ center_row < (rows : ℤ) ∧ 0 ≤ c ∧ c < (cols : ℤ) then
        setCell g center_row c jch.2
      else pure g) g

/-- `ascii_layout` (build_pr_comment.py:76-163): empty input yields the
empty line sequence; otherwise scale every rectangle onto a `cols × rows`
grid, draw each one, and wrap the grid with a one-cell border.  All grid
writes are threaded through `Option`, so a `some` result certifies that
every write stayed inside the grid. -/
def ascii_layout (visuals_for_page : List (ℕ × Visual)) (cols rows : ℕ) :
    Option (List String) :=
  match visuals_for_page with
  | [] => some []
  | _ =>
    let xywh : List XYWH := visuals_for_page.map
      (fun p => { idx := p.1, x := p.2.x, y := p.2.y, w := p.2.width, h := p.2.height })
    let ext := adjust_extents (layout_extents xywh)
    let sx := (cols : ℚ) / ext.1
    let sy := (rows : ℚ) / ext.2
    let grid : CharGrid := List.replicate rows (List.replicate cols ' ')
    do
      let g ← xywh.foldlM
        (fun g e =>
          let ltrb := mapRect cols rows sx sy e.x e.y e.w e.h
          drawVisual cols rows g e.idx ltrb.1 ltrb.2.1 ltrb.2.2.1 ltrb.2.2.2) grid
      let border := "+" ++ String.mk (List.replicate cols '-') ++ "+"
      let body := g.map (fun row => "|" ++ String.mk row ++ "|")
      return border :: (body ++ [border])

/-- A visual document whose nested title literal is `value`
(the full `visual.visualContainerObjects.title[0].properties.text.expr`
`.Literal.Value` path). -/
def titleDoc (value : JVal) : JVal :=
  JVal.obj [("visual", JVal.obj
    [("visualContainerObjects", JVal.obj [("title", JVal.arr
      [JVal.obj [("properties", JVal.obj [("text", JVal.obj [("expr", JVal.obj
        [("Literal", JVal.obj [("Value", value)])])])])]])])])]

/-- Title literal `"'Sales And Marketing'"` (PBI inner quoting). -/
def docQuotedTitle : JVal := titleDoc (JVal.str "'Sales And Marketing'")

/-- Title literal `"Sales"` (no inner quoting). -/
def docPlainTitle : JVal := titleDoc (JVal.str "Sales")

/-- Title literal `"''"`: empty after quote-stripping. -/
def docEmptyQuotes : JVal := titleDoc (JVal.str "''")

/-- Title literal that is whitespace only. -/
def docWhitespaceTitle : JVal := titleDoc (JVal.str "   ")

/-- A visual document with a perfectly well-formed, non-empty
`visual.visualType`. -/
def docBarChart : JVal :=
  JVal.obj [("visual", JVal.obj [("visualType", JVal.str "barChart")])]

/-- A source-file path for the visual-type error message. -/
def c1Path : String := "Sample.Report/definition/pages/p1/visuals/v1/visual.json"

/-- A visual document whose position block has a non-numeric (`null`) `x`
field. -/
def docBadPosition : JVal :=
  JVal.obj [("position", JVal.obj [("x", JVal.null)])]

/-- C2 scenario: a page directory named `PageDir` whose `page.json` declares
`name` = `n1` and no `displayName`; no visuals directory. -/
def pdC2 : PageDir :=
  { name := "PageDir", pageJsonIsFile := true,
    pageDoc := some (JVal.obj [("name", JVal.str "n1")]),
    visualsDirExists := false, visualDirs := [] }

/-- C2 scenario: a report containing only `pdC2`. -/
def rdC2 : ReportDir :=
  { rootParts := ["root"], relParts := ["R.Report"],
    pagesDirExists := true, pageDirs := [pdC2] }

/-- The page the indexing pass emits for `rdC2`. -/
def pageC2 : Page :=
  { id := "n1", name := "PageDir", report := "R",
    path := "R.Report/definition/pages/PageDir/page.json", visuals := [] }

/-- C8 scenario: visual V at path `a/v1/visual.json`. -/
def visC8 : Visual :=
  { id := "v1", name := "v1", visualType := "barChart", titleText := none,
    path := "a/v1/visual.json", x := 0, y := 0, width := 100, height := 50 }

/-- C8 scenario: page P at definition path `a/page.json`, owning `visC8`. -/
def pageC8 : Page :=
  { id := "p1", name := "Page 1", report := "R", path := "a/page.json",
    visuals := [visC8] }

/-- The single change group C8 expects for `pageC8`. -/
def groupC8 : ChangeGroup :=
  { page := pageC8, page_changed := true, page_path := "a/page.json",
    visuals := [("a/v1/visual.json", visC8)] }

/-- The character grid has `rows` rows of `cols` characters each: the shape
invariant every grid write preserves. -/
def GridInv (cols rows : ℕ) (g : CharGrid) : Prop :=
  g.length = rows ∧ ∀ row ∈ g, row.length = cols

/-- The enumeration-order-insensitive form of a page directory: its visual
subdirectories in sorted order.  Two enumerations of the same on-disk page
directory have the same canonical form. -/
def canonPD (pd : PageDir) : PageDir :=
  { pd with visualDirs := sortByKey (fun vd => strKey vd.name) pd.visualDirs }

/-- Two `ReportDir` models are enumerations of the same on-disk report
directory: same location and flags, page listings equal as multisets after
canonicalizing each page's visual listing, and (as in any real directory)
no two page subdirectories share a name. -/
def SameReportTree (rd₁ rd₂ : ReportDir) : Prop :=
  rd₁.rootParts = rd₂.rootParts ∧ rd₁.relParts = rd₂.relParts ∧
  rd₁.pagesDirExists = rd₂.pagesDirExists ∧
  List.Perm (rd₁.pageDirs.map canonPD) (rd₂.pageDirs.map canonPD) ∧
  (rd₁.pageDirs.map PageDir.name).Nodup

/-- The page subdirectories the walker actually indexes, in the order it
visits them: the sorted listing filtered to entries with a `page.json`
outside any `bookmarks` segment. -/
def candidate_page_dirs (rd : ReportDir) : List PageDir :=
  if !rd.pagesDirExists then []
  else (sortByKey (fun pd => strKey pd.name) rd.pageDirs).filter
    (fun pd => pd.pageJsonIsFile &&
      !under_bookmarks (pageJsonAllParts rd.rootParts rd.relParts pd.name))

/-- C9 witness: a visual directory holding a well-formed visual document. -/
def vdW (nm : String) : VisualDir :=
  { name := nm, visualJsonIsFile := true,
    visualDoc := some (JVal.obj [("name", JVal.str nm),
      ("visual", JVal.obj [("visualType", JVal.str "barChart")])]) }

/-- C9 witness: page directory `pa` with visuals enumerated in one order. -/
def pdWa : PageDir :=
  { name := "pa", pageJsonIsFile := true,
    pageDoc := some (JVal.obj [("name", JVal.str "a1")]),
    visualsDirExists := true, visualDirs := [vdW "v1", vdW "v2"] }

/-- C9 witness: the same page directory with visuals enumerated in the
other order. -/
def pdWa' : PageDir :=
  { pdWa with visualDirs := [vdW "v2", vdW "v1"] }

/-- C9 witness: a second page directory. -/
def pdWb : PageDir :=
  { name := "pb", pageJsonIsFile := true,
    pageDoc := some (JVal.obj [("name", JVal.str "b1")]),
    visualsDirExists := false, visualDirs := [] }

/-- C9 witness: one enumeration of the report tree. -/
def rdW1 : ReportDir :=
  { rootParts := ["root"], relParts := ["R.Report"],
    pagesDirExists := true, pageDirs := [pdWa, pdWb] }

/-- C9 witness: the other enumeration of the same report tree (pages and
visuals listed in a different order). -/
def rdW2 : ReportDir :=
  { rootParts := ["root"], relParts := ["R.Report"],
    pagesDirExists := true, pageDirs := [pdWb, pdWa'] }

/-- C9 witness: two report-directory entries of an `rglob` enumeration. -/
def fsA : FsEntry := { parts := ["A.Report"], isDir := true }

/-- C9 witness: the second entry. -/
def fsB : FsEntry := { parts := ["B.Report"], isDir := true }

/-- C9 counterexample: a report named `Z.Report` nested under `sub0`. -/
def fsSub0Z : FsEntry := { parts := ["sub0", "Z.Report"], isDir := true }

/-- C9 counterexample: a report named `B.Report` nested under `sub1`. -/
def fsSub1B : FsEntry := { parts := ["sub1", "B.Report"], isDir := true }

/-- C4 scenario, renderer input rectangles: visual 1 spans the full extent
`60 × 16`; visual 2 is a zero-width visual sitting on the right edge
(`x = 60`). -/
def xywhC4 : List XYWH :=
  [{ idx := 1, x := 0, y := 0, w := 60, h := 16 },
   { idx := 2, x := 60, y := 0, w := 0, h := 16 }]

/-- C5 scenario: a single visual with positive horizontal extent `5` but
all-zero vertical extent. -/
def xsC5 : List XYWH :=
  [{ idx := 1, x := 0, y := 0, w := 5, h := 0 }]

/-- C5 witness scenario: a visual with both extents positive. -/
def xsC5w : List XYWH :=
  [{ idx := 1, x := 0, y := 0, w := 2, h := 3 }]

/-! ## Claim theorems -/

/-- Claim C7: title extraction of the quoted literal `"'Sales And
Marketing'"` yields exactly `Sales And Marketing`; the unquoted `"Sales"`
passes through unchanged; and whenever the nested title path fails to
resolve to a string (absence, wrong type, structural mismatch), the result
is `none` — never an error. -/
theorem c7_title_extraction :
    extract_title_text docQuotedTitle = some "Sales And Marketing" ∧
    extract_title_text docPlainTitle = some "Sales" ∧
    ∀ vobj : JVal, title_literal vobj = none → extract_title_text vobj = none := by
  refine ⟨by decide, by decide, ?_⟩
  intro vobj h
  unfold extract_title_text
  rw [h]

/-- Witness for C7: the empty document resolves no title path and yields
`none`. -/
theorem c7_title_extraction_witness : extract_title_text (JVal.obj []) = none :=
  c7_title_extraction.2.2 (JVal.obj []) rfl

/-- `pyOrNone` never yields the empty string: falsiness sends it to
`none`. -/
theorem pyOrNone_ne_some_empty (s : String) : pyOrNone s ≠ some "" := by
  intro hc
  by_cases h : s = ""
  · rw [pyOrNone, if_pos h] at hc; exact Option.noConfusion hc
  · rw [pyOrNone, if_neg h] at hc; exact h (Option.some.inj hc)

/-- Claim C10: a title literal that is empty after quote-stripping and
trimming (`"''"`, whitespace) yields an absent title, and no document ever
yields `some ""`. -/
theorem c10_no_empty_title :
    extract_title_text docEmptyQuotes = none ∧
    extract_title_text docWhitespaceTitle = none ∧
    ∀ vobj : JVal, extract_title_text vobj ≠ some "" := by
  refine ⟨by decide, by decide, ?_⟩
  intro vobj h
  unfold extract_title_text at h
  cases htl : title_literal vobj with
  | none => rw [htl] at h; exact Option.noConfusion h
  | some t =>
    rw [htl] at h
    exact pyOrNone_ne_some_empty _ h

/-- Witness for C10 (applying the universal part at a concrete document):
the all-quotes title never becomes the empty-string title. -/
theorem c10_no_empty_title_witness : extract_title_text docEmptyQuotes ≠ some "" :=
  c10_no_empty_title.2.2 docEmptyQuotes

/-- Claim C1 (code bug): the document `docBarChart` has the non-empty string
`barChart` at `visual.visualType` — the first try-block's own lookup
resolves it — yet `extract_visual_type` raises the schema-violation error,
as it does for every document, because both try-blocks die on the undefined
names `vt`/`vg` and `except Exception` swallows the `NameError`. -/
theorem c1_visual_type_always_fails :
    visual_visualType_lookup docBarChart = .ok (some (JVal.str "barChart")) ∧
    extract_visual_type docBarChart c1Path =
      .error ("Unable to determine visual type. " ++
        "Expected either visual.visualType or visualGroup.displayName. " ++
        "File: " ++ c1Path) ∧
    ∀ (vobj : JVal) (p : String), ∃ msg, extract_visual_type vobj p = .error msg :=
  ⟨rfl, rfl, fun _ _ => ⟨_, rfl⟩⟩

/-- Claim C6 counterexample: a document whose position block carries a
non-numeric (`null`) `x` field makes rectangle resolution raise — it does
not return a rectangle, contradicting "never fails for any visual
document". -/
theorem c6_rect_counterexample :
    extract_xywh_from_position docBadPosition =
      .error "TypeError: float() argument is None" := rfl

/-- Claim C6 as amended: rectangle resolution succeeds for every JSON-object
document whose position block is absent, falsy, or an object whose four
fields (where present) convert under Python `float`; a missing or falsy
position block yields exactly `(0, 0, 1, 1)`, and each absent field defaults
independently (`x=0`, `y=0`, `width=1`, `height=1`). -/
theorem c6_rect_resolution :
    (∀ kvs, lookupKV kvs "position" = none →
      extract_xywh_from_position (JVal.obj kvs) = .ok (0, 0, 1, 1)) ∧
    (∀ kvs p, lookupKV kvs "position" = some p → jtruthy p = false →
      extract_xywh_from_position (JVal.obj kvs) = .ok (0, 0, 1, 1)) ∧
    (∀ kvs pkvs x y w h, lookupKV kvs "position" = some (JVal.obj pkvs) →
      pyFloat ((lookupKV pkvs "x").getD (JVal.num 0)) = .ok x →
      pyFloat ((lookupKV pkvs "y").getD (JVal.num 0)) = .ok y →
      pyFloat ((lookupKV pkvs "width").getD (JVal.num 1)) = .ok w →
      pyFloat ((lookupKV pkvs "height").getD (JVal.num 1)) = .ok h →
      extract_xywh_from_position (JVal.obj kvs) = .ok (x, y, w, h)) := by
  refine ⟨?_, ?_, ?_⟩
  · intro kvs h
    simp [extract_xywh_from_position, pyGetD, h, jtruthy, pyFloat, lookupKV,
      Option.getD, Bind.bind, Except.bind, Pure.pure, Except.pure]
  · intro kvs p h ht
    simp [extract_xywh_from_position, pyGetD, h, ht, pyFloat, lookupKV,
      Option.getD, Bind.bind, Except.bind, Pure.pure, Except.pure]
  · intro kvs pkvs x y w h hpos hx hy hw hh
    have hobj : (if jtruthy (JVal.obj pkvs) then JVal.obj pkvs else JVal.obj []) =
        JVal.obj pkvs := by
      cases pkvs <;> simp [jtruthy]
    simp [extract_xywh_from_position, pyGetD, hpos, hobj, hx, hy, hw, hh,
      Bind.bind, Except.bind, Pure.pure, Except.pure]

/-- Witness for C6: the empty document has no position block and resolves to
the unit box. -/
theorem c6_rect_resolution_witness :
    extract_xywh_from_position (JVal.obj []) = .ok (0, 0, 1, 1) :=
  c6_rect_resolution.1 [] rfl

/-- Claim C8: with an index holding page P (path `a/page.json`) owning
visual V (path `a/v1/visual.json`), the changed list
`["a/page.json", "a/v1/visual.json", "unrelated/file.txt"]` correlates to
exactly one group, keyed by P's page key, with `page_changed = true` and the
single changed-visual entry for V; the unrelated path adds nothing.  The
page key is the id, falling back to `report/name` when the id is falsy. -/
theorem c8_change_correlation :
    correlate [pageC8] ["a/page.json", "a/v1/visual.json", "unrelated/file.txt"] =
      [(page_key pageC8, groupC8)] ∧
    page_key pageC8 = "p1" ∧
    page_key { pageC8 with id := "" } = "R/Page 1" :=
  ⟨rfl, rfl, rfl⟩

/-- Claim C2 counterexample: the indexed page of `rdC2` declares `name` =
`n1` and no `displayName`, yet its display name is the directory name
`PageDir`, not its id `n1`. -/
theorem c2_counterexample :
    collect_pages_for_report rdC2 = .ok [pageC2] ∧ pageC2.name ≠ pageC2.id :=
  ⟨rfl, by decide⟩

/-- Claim C2 as amended: for an indexed page whose definition document
declares a (truthy string) name and no display-name field, the emitted
page's `id` is the declared name and its `name` is the page directory name,
falling back to the id only when the directory name is empty. -/
theorem c2_display_name_fallback (root rel : List String) (pd : PageDir)
    (rest : List PageDir) (kvs : List (String × JVal)) (s : String)
    (ps : List Page)
    (hfile : pd.pageJsonIsFile = true)
    (hbm : under_bookmarks (pageJsonAllParts root rel pd.name) = false)
    (hdoc : pd.pageDoc = some (JVal.obj kvs))
    (hname : lookupKV kvs "name" = some (JVal.str s))
    (hs : s ≠ "")
    (hdn : lookupKV kvs "displayName" = none)
    (hok : collect_pages_aux root rel (pd :: rest) = .ok ps) :
    ∃ p ps', ps = p :: ps' ∧ p.id = s ∧
      p.name = (if pd.name = "" then s else pd.name) := by
  rw [collect_pages_aux, hfile, hbm] at hok
  simp only [Bool.not_true, Bool.false_or, if_neg (by simp : ¬ (false = true))] at hok
  rw [hdoc] at hok
  have hkvs : readJsonOrEmpty (some (JVal.obj kvs)) = JVal.obj kvs := by
    cases kvs with
    | nil => simp [lookupKV] at hname
    | cons hd tl => simp [readJsonOrEmpty, jtruthy]
  rw [hkvs] at hok
  simp only [pyGetOpt, hname, hdn, Bind.bind, Except.bind,
    Pure.pure, Except.pure] at hok
  have hid : page_id_of pd.name (some (JVal.str s)) = s := by
    simp [page_id_of, jtruthyO, jtruthy, pyStrO, pyStr, hs]
  have hnm : page_name_of pd.name (page_id_of pd.name (some (JVal.str s))) none =
      (if pd.name = "" then s else pd.name) := by
    by_cases hn : pd.name = ""
    · simp [page_name_of, page_id_of, jtruthyO, jtruthy, pyStrO, pyStr, hs, hn]
    · simp [page_name_of, jtruthyO, hn]
  split at hok
  · split at hok
    · exact Except.noConfusion hok
    · split at hok
      · exact Except.noConfusion hok
      · exact ⟨_, _, (Except.ok.inj hok).symm, hid, hnm⟩
  · split at hok
    · exact Except.noConfusion hok
    · exact ⟨_, _, (Except.ok.inj hok).symm, hid, hnm⟩


/-- Bounds of the scaled-rounded-clamped-adjusted rectangle: both coordinate
pairs stay inside the grid and are ordered; the minimum-size adjustment
guarantees a strictly positive span except when the clamped low coordinate
already sits on the last column/row. -/
theorem mapRect_bounds {cols rows : ℕ} (hc : 1 ≤ cols) (hr : 1 ≤ rows)
    (sx sy x y w h : ℚ) :
    0 ≤ (mapRect cols rows sx sy x y w h).1 ∧
    (mapRect cols rows sx sy x y w h).1 ≤ (mapRect cols rows sx sy x y w h).2.2.1 ∧
    (mapRect cols rows sx sy x y w h).2.2.1 ≤ (cols : ℤ) - 1 ∧
    0 ≤ (mapRect cols rows sx sy x y w h).2.1 ∧
    (mapRect cols rows sx sy x y w h).2.1 ≤ (mapRect cols rows sx sy x y w h).2.2.2 ∧
    (mapRect cols rows sx sy x y w h).2.2.2 ≤ (rows : ℤ) - 1 ∧
    ((mapRect cols rows sx sy x y w h).1 < (cols : ℤ) - 1 →
      (mapRect cols rows sx sy x y w h).1 < (mapRect cols rows sx sy x y w h).2.2.1) ∧
    ((mapRect cols rows sx sy x y w h).2.1 < (rows : ℤ) - 1 →
      (mapRect cols rows sx sy x y w h).2.1 < (mapRect cols rows sx sy x y w h).2.2.2) := by
  dsimp only [mapRect, clampInt]
  split_ifs <;> refine ⟨by omega, by omega, by omega, by omega, by omega,
    by omega, by omega, by omega⟩

/-- Claim C4 counterexample: in the renderer's own scaling for `xywhC4`
(scale factors `60/60` and `16/16`), the zero-width right-edge visual maps
to `left = right = 59` — the minimum-size adjustment cannot widen it, so it
does not span a cell horizontally. -/
theorem c4_min_span_counterexample :
    (mapRect 60 16
      ((60 : ℚ) / (adjust_extents (layout_extents xywhC4)).1)
      ((16 : ℚ) / (adjust_extents (layout_extents xywhC4)).2)
      60 0 0 16).1 = 59 ∧
    (mapRect 60 16
      ((60 : ℚ) / (adjust_extents (layout_extents xywhC4)).1)
      ((16 : ℚ) / (adjust_extents (layout_extents xywhC4)).2)
      60 0 0 16).2.2.1 = 59 ∧
    ¬ ((mapRect 60 16
      ((60 : ℚ) / (adjust_extents (layout_extents xywhC4)).1)
      ((16 : ℚ) / (adjust_extents (layout_extents xywhC4)).2)
      60 0 0 16).1 <
      (mapRect 60 16
      ((60 : ℚ) / (adjust_extents (layout_extents xywhC4)).1)
      ((16 : ℚ) / (adjust_extents (layout_extents xywhC4)).2)
      60 0 0 16).2.2.1) := by
  norm_num [xywhC4, layout_extents, adjust_extents, mapRect, pythonRound,
    clampInt]

/-- Claim C4 as amended: after scaling, rounding, clamping and the
minimum-size adjustment every visual's rectangle is ordered and inside the
grid, and it spans at least one cell on each axis unless its clamped
left/top coordinate already lies on the grid's last column/row, where the
span collapses to that boundary line. -/
theorem c4_min_span {cols rows : ℕ} (hc : 1 ≤ cols) (hr : 1 ≤ rows)
    (sx sy x y w h : ℚ) :
    (mapRect cols rows sx sy x y w h).1 ≤ (mapRect cols rows sx sy x y w h).2.2.1 ∧
    (mapRect cols rows sx sy x y w h).2.1 ≤ (mapRect cols rows sx sy x y w h).2.2.2 ∧
    ((mapRect cols rows sx sy x y w h).1 < (cols : ℤ) - 1 →
      (mapRect cols rows sx sy x y w h).1 < (mapRect cols rows sx sy x y w h).2.2.1) ∧
    ((mapRect cols rows sx sy x y w h).2.1 < (rows : ℤ) - 1 →
      (mapRect cols rows sx sy x y w h).2.1 < (mapRect cols rows sx sy x y w h).2.2.2) := by
  obtain ⟨_, h2, _, _, h5, _, h7, h8⟩ := mapRect_bounds hc hr sx sy x y w h
  exact ⟨h2, h5, h7, h8⟩

/-- Witness for C4: a unit visual at the origin of the default grid, scaled
by 1, spans at least one cell on each axis. -/
theorem c4_min_span_witness :
    (mapRect 60 16 1 1 0 0 1 1).1 < (mapRect 60 16 1 1 0 0 1 1).2.2.1 ∧
    (mapRect 60 16 1 1 0 0 1 1).2.1 < (mapRect 60 16 1 1 0 0 1 1).2.2.2 := by
  have hb := @c4_min_span 60 16 (by decide) (by decide) 1 1 0 0 1 1
  refine ⟨hb.2.2.1 ?_, hb.2.2.2 ?_⟩ <;>
    norm_num [mapRect, pythonRound, clampInt]

/-- A fold of maxima never drops below its initial accumulator. -/
theorem le_foldl_max (f : XYWH → ℚ) :
    ∀ (l : List XYWH) (init : ℚ), init ≤ l.foldl (fun m e => max m (f e)) init
  | [], _ => le_refl _
  | e :: t, init => le_trans (le_max_left _ _) (le_foldl_max f t (max init (f e)))

/-- The extent folds start at `0` and only grow: both extents are
nonnegative. -/
theorem layout_extents_nonneg (xs : List XYWH) :
    0 ≤ (layout_extents xs).1 ∧ 0 ≤ (layout_extents xs).2 := by
  unfold layout_extents
  exact ⟨le_foldl_max (fun e => e.x + e.w) xs 0, le_foldl_max (fun e => e.y + e.h) xs 0⟩

/-- Claim C5 counterexample: `xsC5` has extents `(5, 0)` — not all-zero on
both axes — yet the renderer replaces the extents (by `(1, 1)`), contrary to
"replaced exactly when the extent is degenerate all-zero on both axes". -/
theorem c5_extent_counterexample :
    ¬ ((layout_extents xsC5).1 = 0 ∧ (layout_extents xsC5).2 = 0) ∧
    adjust_extents (layout_extents xsC5) ≠ layout_extents xsC5 := by
  constructor
  · norm_num [layout_extents, xsC5]
  · intro he
    have hadj : (adjust_extents (layout_extents xsC5)).1 = 1 := by
      norm_num [layout_extents, adjust_extents, xsC5]
    have hext : (layout_extents xsC5).1 = 5 := by
      norm_num [layout_extents, xsC5]
    rw [he, hext] at hadj
    norm_num at hadj

/-- Claim C5 as amended: both extents are nonnegative by construction; the
replacement by `(1, 1)` happens exactly when either axis extent is zero
(equivalently, nonpositive); otherwise the scale factors divide the
unmodified extents; and the adjusted extents are strictly positive, so the
divisions `cols/max_right` and `rows/max_bottom` never divide by zero. -/
theorem c5_extent_replacement (xs : List XYWH) :
    0 ≤ (layout_extents xs).1 ∧ 0 ≤ (layout_extents xs).2 ∧
    0 < (adjust_extents (layout_extents xs)).1 ∧
    0 < (adjust_extents (layout_extents xs)).2 ∧
    ((layout_extents xs).1 ≠ 0 ∧ (layout_extents xs).2 ≠ 0 →
      adjust_extents (layout_extents xs) = layout_extents xs) ∧
    ((layout_extents xs).1 = 0 ∨ (layout_extents xs).2 = 0 →
      adjust_extents (layout_extents xs) = (1, 1)) := by
  have h1 : 0 ≤ (layout_extents xs).1 := (layout_extents_nonneg xs).1
  have h2 : 0 ≤ (layout_extents xs).2 := (layout_extents_nonneg xs).2
  by_cases hle : (layout_extents xs).1 ≤ 0 ∨ (layout_extents xs).2 ≤ 0
  · have hadj : adjust_extents (layout_extents xs) = (1, 1) := by
      rw [adjust_extents, if_pos hle]
    refine ⟨h1, h2, by rw [hadj]; norm_num, by rw [hadj]; norm_num, ?_, fun _ => hadj⟩
    rintro ⟨hne1, hne2⟩
    rcases hle with hle | hle
    · exact absurd (le_antisymm hle h1) hne1
    · exact absurd (le_antisymm hle h2) hne2
  · push_neg at hle
    have hadj : adjust_extents (layout_extents xs) = layout_extents xs := by
      rw [adjust_extents, if_neg]
      simp only [not_or, not_le]
      exact hle
    refine ⟨h1, h2, by rw [hadj]; exact hle.1, by rw [hadj]; exact hle.2,
      fun _ => hadj, ?_⟩
    rintro (hz | hz)
    · exact absurd hz (ne_of_gt hle.1)
    · exact absurd hz (ne_of_gt hle.2)

/-- Witness for C5: for a visual set with both extents positive the extents
pass through unmodified. -/
theorem c5_extent_replacement_witness :
    adjust_extents (layout_extents xsC5w) = layout_extents xsC5w :=
  (c5_extent_replacement xsC5w).2.2.2.2.1 (by norm_num [layout_extents, xsC5w])

/-- Witness for C2 (amended): the concrete single-page report of the
counterexample, run through the amended theorem. -/
theorem c2_display_name_fallback_witness :
    ∃ p ps', [pageC2] = p :: ps' ∧ p.id = "n1" ∧
      p.name = (if pdC2.name = "" then "n1" else pdC2.name) :=
  c2_display_name_fallback ["root"] ["R.Report"] pdC2 [] [("name", JVal.str "n1")]
    "n1" [pageC2] rfl rfl rfl rfl (by decide) rfl rfl

/-- An in-bounds grid write succeeds and preserves the grid shape. -/
theorem setCell_ok {cols rows : ℕ} {g : CharGrid} (hg : GridInv cols rows g)
    {r c : ℤ} (hr0 : 0 ≤ r) (hr1 : r < (rows : ℤ)) (hc0 : 0 ≤ c)
    (hc1 : c < (cols : ℤ)) (ch : Char) :
    ∃ g', setCell g r c ch = some g' ∧ GridInv cols rows g' := by
  obtain ⟨hlen, hrows⟩ := hg
  have hrn : r.toNat < g.length := by omega
  have hrowmem : g.get ⟨r.toNat, hrn⟩ ∈ g := List.get_mem g r.toNat hrn
  have hrl : (g.get ⟨r.toNat, hrn⟩).length = cols := hrows _ hrowmem
  have h1 : (0 ≤ r ∧ r < (g.length : ℤ)) := ⟨hr0, by omega⟩
  have h2 : (0 ≤ c ∧ c < ((g.get ⟨r.toNat, hrn⟩).length : ℤ)) := ⟨hc0, by omega⟩
  refine ⟨g.set r.toNat ((g.get ⟨r.toNat, hrn⟩).set c.toNat ch), ?_, ?_, ?_⟩
  · simp only [setCell, if_pos h1, List.get?_eq_get hrn, if_pos h2]
  · rw [List.length_set]; exact hlen
  · intro row' hmem
    rcases List.mem_or_eq_of_mem_set hmem with h | h
    · exact hrows row' h
    · rw [h, List.length_set]; exact hrl

/-- A monadic fold over `Option` succeeds and preserves an invariant when
every step does. -/
theorem foldlM_opt_inv {β : Type} {P : CharGrid → Prop}
    (f : CharGrid → β → Option CharGrid) :
    ∀ (l : List β) (g : CharGrid), P g →
      (∀ b ∈ l, ∀ gg, P gg → ∃ gg', f gg b = some gg' ∧ P gg') →
      ∃ g', l.foldlM f g = some g' ∧ P g'
  | [], g, hg, _ => ⟨g, rfl, hg⟩
  | b :: t, g, hg, hf => by
      obtain ⟨g1, e1, h1⟩ := hf b (List.mem_cons_self b t) g hg
      have ih := foldlM_opt_inv f t g1 h1
        (fun x hx gg hgg => hf x (List.mem_cons_of_mem b hx) gg hgg)
      obtain ⟨g', e', h'⟩ := ih
      exact ⟨g', by rw [List.foldlM_cons, e1]; exact e', h'⟩

/-- Integers produced by `intRange a b` lie in `[a, b)`. -/
theorem mem_intRange {a b x : ℤ} (h : x ∈ intRange a b) : a ≤ x ∧ x < b := by
  unfold intRange at h
  obtain ⟨i, hi, rfl⟩ := List.mem_map.mp h
  rw [List.mem_range] at hi
  simp only [Int.ofNat_eq_coe]
  omega

/-- Drawing one visual whose rectangle is ordered and inside the grid
succeeds and preserves the grid shape. -/
theorem drawVisual_ok {cols rows : ℕ} {g : CharGrid}
    (hg : GridInv cols rows g) (idx : ℕ) {l t r b : ℤ}
    (hl : 0 ≤ l) (hlr : l ≤ r) (hrc : r ≤ (cols : ℤ) - 1)
    (ht : 0 ≤ t) (htb : t ≤ b) (hbr : b ≤ (rows : ℤ) - 1) :
    ∃ g', drawVisual cols rows g idx l t r b = some g' ∧ GridInv cols rows g' := by
  simp only [drawVisual]
  obtain ⟨g1, e1, h1⟩ := setCell_ok hg ht (by omega) hl (by omega) '+'
  rw [e1]; simp only [Option.bind_eq_bind, Option.some_bind]
  obtain ⟨g2, e2, h2⟩ := setCell_ok h1 ht (by omega) (le_trans hl hlr) (by omega) '+'
  rw [e2]; simp only [Option.bind_eq_bind, Option.some_bind]
  obtain ⟨g3, e3, h3⟩ := setCell_ok h2 (le_trans ht htb) (by omega) hl (by omega) '+'
  rw [e3]; simp only [Option.bind_eq_bind, Option.some_bind]
  obtain ⟨g4, e4, h4⟩ := setCell_ok h3 (le_trans ht htb) (by omega) (le_trans hl hlr)
    (by omega) '+'
  rw [e4]; simp only [Option.bind_eq_bind, Option.some_bind]
  have hedge : ∀ c ∈ intRange (l + 1) r, ∀ gg, GridInv cols rows gg →
      ∃ gg', ((setCell gg t c '-').bind fun g => setCell g b c '-') = some gg' ∧
        GridInv cols rows gg' := by
    intro c hc gg hgg
    obtain ⟨hc1, hc2⟩ := mem_intRange hc
    obtain ⟨gg1, ee1, hh1⟩ := setCell_ok (r := t) (c := c) hgg ht (by omega)
      (by omega) (by omega) '-'
    obtain ⟨gg2, ee2, hh2⟩ := setCell_ok (r := b) (c := c) hh1 (le_trans ht htb)
      (by omega) (by omega) (by omega) '-'
    refine ⟨gg2, ?_, hh2⟩
    rw [ee1]; simp only [Option.some_bind]; exact ee2
  obtain ⟨g5, e5, h5⟩ := foldlM_opt_inv _ (intRange (l + 1) r) g4 h4 hedge
  rw [e5]; simp only [Option.bind_eq_bind, Option.some_bind]
  have hvert : ∀ rr ∈ intRange (t + 1) b, ∀ gg, GridInv cols rows gg →
      ∃ gg', ((setCell gg rr l '|').bind fun g => setCell g rr r '|') = some gg' ∧
        GridInv cols rows gg' := by
    intro rr hrr gg hgg
    obtain ⟨hr1, hr2⟩ := mem_intRange hrr
    obtain ⟨gg1, ee1, hh1⟩ := setCell_ok (r := rr) (c := l) hgg (by omega)
      (by omega) hl (by omega) '|'
    obtain ⟨gg2, ee2, hh2⟩ := setCell_ok (r := rr) (c := r) hh1 (by omega)
      (by omega) (le_trans hl hlr) (by omega) '|'
    refine ⟨gg2, ?_, hh2⟩
    rw [ee1]; simp only [Option.some_bind]; exact ee2
  obtain ⟨g6, e6, h6⟩ := foldlM_opt_inv _ (intRange (t + 1) b) g5 h5 hvert
  rw [e6]; simp only [Option.bind_eq_bind, Option.some_bind]
  apply foldlM_opt_inv _ _ g6 h6
  intro jch hjch gg hgg
  by_cases hcond : 0 ≤ max (t + 1) (min (b - 1) (t + 1 + (max 1 (b - t - 1)).fdiv 2)) ∧
      max (t + 1) (min (b - 1) (t + 1 + (max 1 (b - t - 1)).fdiv 2)) < (rows : ℤ) ∧
      0 ≤ max (l + 1) (min (r - ((toString idx).length : ℤ))
        (l + 1 + (max 1 (r - l - 1) - ((toString idx).length : ℤ)).fdiv 2)) + (jch.1 : ℤ) ∧
      max (l + 1) (min (r - ((toString idx).length : ℤ))
        (l + 1 + (max 1 (r - l - 1) - ((toString idx).length : ℤ)).fdiv 2)) + (jch.1 : ℤ) <
        (cols : ℤ)
  · obtain ⟨hh1, hh2, hh3, hh4⟩ := hcond
    obtain ⟨gg', ee', hh'⟩ := setCell_ok hgg hh1 hh2 hh3 hh4 jch.2
    exact ⟨gg', by rw [if_pos ⟨hh1, hh2, hh3, hh4⟩]; exact ee', hh'⟩
  · exact ⟨gg, by rw [if_neg hcond]; rfl, hgg⟩

/-- The renderer's per-visual drawing fold succeeds and preserves the grid
shape, for any scale factors and any rectangles: the clamping inside
`mapRect` guarantees in-grid coordinates. -/
theorem ascii_fold_ok (cols rows : ℕ) (hc : 1 ≤ cols) (hr : 1 ≤ rows)
    (sx sy : ℚ) (xywh : List XYWH) {g : CharGrid} (hg : GridInv cols rows g) :
    ∃ g', xywh.foldlM (fun g e =>
        drawVisual cols rows g e.idx
          (mapRect cols rows sx sy e.x e.y e.w e.h).1
          (mapRect cols rows sx sy e.x e.y e.w e.h).2.1
          (mapRect cols rows sx sy e.x e.y e.w e.h).2.2.1
          (mapRect cols rows sx sy e.x e.y e.w e.h).2.2.2) g = some g' ∧
      GridInv cols rows g' := by
  apply foldlM_opt_inv _ xywh g hg
  intro e _ gg hgg
  obtain ⟨b1, b2, b3, b4, b5, b6, _, _⟩ := mapRect_bounds hc hr sx sy e.x e.y e.w e.h
  exact drawVisual_ok hgg e.idx b1 b2 b3 b4 b5 b6

/-- Claim C3: for any visual list with arbitrary rational rectangles
(zero-size, negative and out-of-extent included) the renderer produces
`some` result — every grid write is in bounds — consisting of exactly
`rows + 2` lines of length exactly `cols + 2`; the empty visual list
produces the empty line sequence. -/
theorem c3_ascii_layout_shape (vs : List (ℕ × Visual)) (cols rows : ℕ)
    (hc : 1 ≤ cols) (hr : 1 ≤ rows) :
    ascii_layout [] cols rows = some [] ∧
    (vs ≠ [] → ∃ lines, ascii_layout vs cols rows = some lines ∧
      lines.length = rows + 2 ∧ ∀ ln ∈ lines, ln.length = cols + 2) := by
  refine ⟨rfl, ?_⟩
  intro hne
  cases vs with
  | nil => exact absurd rfl hne
  | cons v vt =>
    simp only [ascii_layout]
    have hginit : GridInv cols rows (List.replicate rows (List.replicate cols ' ')) := by
      constructor
      · exact List.length_replicate rows _
      · intro row hrow
        rw [List.eq_of_mem_replicate hrow]
        exact List.length_replicate cols _
    obtain ⟨gF, eF, hF⟩ := ascii_fold_ok cols rows hc hr
      ((cols : ℚ) /
        (adjust_extents (layout_extents ((v :: vt).map
          (fun p => ⟨p.1, p.2.x, p.2.y, p.2.width, p.2.height⟩)))).1)
      ((rows : ℚ) /
        (adjust_extents (layout_extents ((v :: vt).map
          (fun p => ⟨p.1, p.2.x, p.2.y, p.2.width, p.2.height⟩)))).2)
      ((v :: vt).map (fun p => ⟨p.1, p.2.x, p.2.y, p.2.width, p.2.height⟩))
      hginit
    rw [eF]
    simp only [Option.bind_eq_bind, Option.some_bind]
    refine ⟨_, rfl, ?_, ?_⟩
    · simp only [List.length_cons, List.length_append, List.length_map,
        List.length_singleton, List.length_nil, hF.1]
    · have hplus : ("+" : String).length = 1 := rfl
      have hbar : ("|" : String).length = 1 := rfl
      have hpm : ∀ l : List Char, (("+" : String) ++ String.mk l ++ "+").length =
          l.length + 2 := by
        intro l
        simp [String.length_append, hplus]
        omega
      have hbm : ∀ l : List Char, (("|" : String) ++ String.mk l ++ "|").length =
          l.length + 2 := by
        intro l
        simp [String.length_append, hbar]
        omega
      intro ln hln
      rcases List.mem_cons.mp hln with hln | hln
      · rw [hln, hpm, List.length_replicate]
      rcases List.mem_append.mp hln with hln | hln
      · obtain ⟨row, hrowmem, hrow⟩ := List.mem_map.mp hln
        rw [← hrow, hbm, hF.2 row hrowmem]
      · rw [List.mem_singleton.mp hln, hpm, List.length_replicate]

/-- Witness for C3: a single unit visual on the default 60×16 grid yields
18 lines of 62 characters; the empty list yields the empty sequence. -/
theorem c3_ascii_layout_shape_witness :
    ascii_layout [] 60 16 = some [] ∧
    ∃ lines, ascii_layout [(1, visC8)] 60 16 = some lines ∧
      lines.length = 16 + 2 ∧ ∀ ln ∈ lines, ln.length = 60 + 2 :=
  ⟨(c3_ascii_layout_shape [(1, visC8)] 60 16 (by decide) (by decide)).1,
   (c3_ascii_layout_shape [(1, visC8)] 60 16 (by decide) (by decide)).2
     (List.cons_ne_nil _ _)⟩

/-- `sortByKey` permutes its input. -/
theorem sortByKey_perm {α β : Type _} [LinearOrder β] (key : α → β) (l : List α) :
    List.Perm (sortByKey key l) l :=
  List.perm_insertionSort _ l

/-- `sortByKey` sorts by the key. -/
theorem sortByKey_sorted {α β : Type _} [LinearOrder β] (key : α → β) (l : List α) :
    List.Sorted (keyLE key) (sortByKey key l) :=
  List.sorted_insertionSort _ l

/-- Two key-sorted lists that are permutations of each other and have
pairwise-distinct keys are equal. -/
theorem sorted_unique_by_keys {α β : Type _} [LinearOrder β] (key : α → β) :
    ∀ {l₁ l₂ : List α}, List.Perm l₁ l₂ → List.Sorted (keyLE key) l₁ →
      List.Sorted (keyLE key) l₂ → (l₁.map key).Nodup → l₁ = l₂ := by
  intro l₁
  induction l₁ with
  | nil =>
    intro l₂ hp _ _ _
    exact (List.Perm.eq_nil hp.symm).symm
  | cons a t ih =>
    intro l₂ hp hs₁ hs₂ hn
    cases l₂ with
    | nil => exact absurd (List.Perm.eq_nil hp) (List.cons_ne_nil a t)
    | cons b u =>
      obtain ⟨ha1, hst⟩ := List.sorted_cons.mp hs₁
      obtain ⟨hb1, hsu⟩ := List.sorted_cons.mp hs₂
      rw [List.map_cons] at hn
      obtain ⟨hkni, hknt⟩ := List.nodup_cons.mp hn
      have hab : a = b := by
        by_contra hne
        have ha2 : a ∈ u := by
          rcases List.mem_cons.mp (hp.mem_iff.mp (List.mem_cons_self a t)) with h | h
          · exact absurd h hne
          · exact h
        have hb2 : b ∈ t := by
          rcases List.mem_cons.mp (hp.symm.mem_iff.mp (List.mem_cons_self b u)) with h | h
          · exact absurd h.symm hne
          · exact h
        have keq : key a = key b := le_antisymm (ha1 b hb2) (hb1 a ha2)
        exact hkni (keq ▸ List.mem_map_of_mem key hb2)
      subst hab
      rw [ih hp.cons_inv hst hsu hknt]

/-- Sorting by key is a function of the input multiset when keys are
pairwise distinct: the embedding of "the walker's output does not depend on
the enumeration order of the directory provider". -/
theorem sortByKey_eq_of_perm {α β : Type _} [LinearOrder β] (key : α → β)
    {l₁ l₂ : List α} (hp : List.Perm l₁ l₂) (hn : (l₁.map key).Nodup) :
    sortByKey key l₁ = sortByKey key l₂ := by
  apply sorted_unique_by_keys key
  · exact (sortByKey_perm key l₁).trans (hp.trans (sortByKey_perm key l₂).symm)
  · exact sortByKey_sorted key l₁
  · exact sortByKey_sorted key l₂
  · exact ((sortByKey_perm key l₁).map key).nodup_iff.mpr hn

/-- `strKey` is injective: equal character lists come from equal strings. -/
theorem strKey_injective : Function.Injective strKey := by
  intro a b h
  cases a; cases b
  have h' := (h : _ = _)
  simp only [strKey] at h'
  rw [h']

/-- Sorting pages commutes with canonicalizing each page's visual listing
(the sort key, the page directory name, is untouched). -/
theorem sortByKey_map_canonPD (l : List PageDir) :
    (sortByKey (fun pd => strKey pd.name) l).map canonPD =
      sortByKey (fun pd => strKey pd.name) (l.map canonPD) := by
  apply List.map_insertionSort
  intro a _ b _
  exact Iff.rfl

/-- The page loop is a function of the canonicalized page listing: two
listings equal after per-page canonicalization process identically. -/
theorem collect_pages_aux_canon (root rel : List String) :
    ∀ {l l' : List PageDir}, l.map canonPD = l'.map canonPD →
      collect_pages_aux root rel l = collect_pages_aux root rel l' := by
  intro l
  induction l with
  | nil =>
    intro l' h
    cases l' with
    | nil => rfl
    | cons p q => exact absurd h (by simp)
  | cons pd t ih =>
    intro l' h
    cases l' with
    | nil => exact absurd h (by simp)
    | cons pd' t' =>
      simp only [List.map_cons, List.cons.injEq] at h
      obtain ⟨hhd, htl⟩ := h
      have h1 := congrArg PageDir.name hhd
      have h2 := congrArg PageDir.pageJsonIsFile hhd
      have h3 := congrArg PageDir.pageDoc hhd
      have h4 := congrArg PageDir.visualsDirExists hhd
      have h5 := congrArg PageDir.visualDirs hhd
      simp only [canonPD] at h1 h2 h3 h4 h5
      rw [collect_pages_aux, collect_pages_aux, h1, h2, h3, h4, h5, ih htl]

/-- The visuals loop succeeds only by skipping everything: processing any
visual runs `extract_visual_type`, which always raises (see C1), so an `ok`
result is the empty list. -/
theorem collect_visuals_ok_nil (root rel : List String) (pdName : String) :
    ∀ (l : List VisualDir) (vs : List Visual),
      collect_visuals root rel pdName l = .ok vs → vs = [] := by
  intro l
  induction l with
  | nil =>
    intro vs h
    rw [collect_visuals] at h
    exact (Except.ok.inj h).symm
  | cons vd t ih =>
    intro vs h
    rw [collect_visuals] at h
    by_cases hskip : (!vd.visualJsonIsFile ||
        under_bookmarks (visualJsonAllParts root rel pdName vd.name)) = true
    · rw [if_pos hskip] at h
      exact ih vs h
    · rw [if_neg hskip] at h
      simp only [extract_visual_type, Bind.bind, Except.bind] at h
      split at h
      · exact Except.noConfusion h
      · split at h
        · exact Except.noConfusion h
        · split at h
          · exact Except.noConfusion h
          · exact Except.noConfusion h

/-- The page loop emits exactly the non-skipped page directories, in list
order, each contributing its `page.json` repo-relative path. -/
theorem collect_pages_aux_paths (root rel : List String) :
    ∀ (l : List PageDir) (ps : List Page), collect_pages_aux root rel l = .ok ps →
      ps.map Page.path = (l.filter (fun pd => pd.pageJsonIsFile &&
        !under_bookmarks (pageJsonAllParts root rel pd.name))).map
        (fun pd => joinPath (pageJsonRelParts rel pd.name)) := by
  intro l
  induction l with
  | nil =>
    intro ps h
    rw [collect_pages_aux] at h
    rw [← Except.ok.inj h]
    rfl
  | cons pd t ih =>
    intro ps h
    rw [collect_pages_aux] at h
    by_cases hskip : (!pd.pageJsonIsFile ||
        under_bookmarks (pageJsonAllParts root rel pd.name)) = true
    · rw [if_pos hskip] at h
      have hpred : (pd.pageJsonIsFile &&
          !under_bookmarks (pageJsonAllParts root rel pd.name)) = false := by
        cases hfile : pd.pageJsonIsFile <;>
          cases hbm : under_bookmarks (pageJsonAllParts root rel pd.name) <;>
          simp_all
      rw [ih ps h, List.filter_cons, hpred]
      rfl
    · rw [if_neg hskip] at h
      have hpred : (pd.pageJsonIsFile &&
          !under_bookmarks (pageJsonAllParts root rel pd.name)) = true := by
        cases hfile : pd.pageJsonIsFile <;>
          cases hbm : under_bookmarks (pageJsonAllParts root rel pd.name) <;>
          simp_all
      simp only [Bind.bind, Except.bind, Pure.pure, Except.pure] at h
      split at h
      · exact Except.noConfusion h
      · split at h
        · exact Except.noConfusion h
        · split at h
          · split at h
            · exact Except.noConfusion h
            · split at h
              · exact Except.noConfusion h
              · rename_i rest' hrest
                rw [← Except.ok.inj h, List.filter_cons, if_pos hpred]
                simp only [List.map_cons]
                rw [ih rest' hrest]
                try rfl
          · split at h
            · exact Except.noConfusion h
            · rename_i rest' hrest
              rw [← Except.ok.inj h, List.filter_cons, if_pos hpred]
              simp only [List.map_cons]
              rw [ih rest' hrest]
              try rfl

/-- In every successful collection, each emitted page's visuals list is
empty (a consequence of the `extract_visual_type` bug, C1: any processed
visual aborts the run). -/
theorem collect_pages_aux_visuals_nil (root rel : List String) :
    ∀ (l : List PageDir) (ps : List Page), collect_pages_aux root rel l = .ok ps →
      ∀ p ∈ ps, p.visuals = [] := by
  intro l
  induction l with
  | nil =>
    intro ps h p hp
    rw [collect_pages_aux] at h
    rw [← Except.ok.inj h] at hp
    exact absurd hp (List.not_mem_nil p)
  | cons pd t ih =>
    intro ps h p hp
    rw [collect_pages_aux] at h
    by_cases hskip : (!pd.pageJsonIsFile ||
        under_bookmarks (pageJsonAllParts root rel pd.name)) = true
    · rw [if_pos hskip] at h
      exact ih ps h p hp
    · rw [if_neg hskip] at h
      simp only [Bind.bind, Except.bind, Pure.pure, Except.pure] at h
      split at h
      · exact Except.noConfusion h
      · split at h
        · exact Except.noConfusion h
        · split at h
          · split at h
            · exact Except.noConfusion h
            · rename_i vs hvs
              split at h
              · exact Except.noConfusion h
              · rename_i rest' hrest
                rw [← Except.ok.inj h] at hp
                rcases List.mem_cons.mp hp with hp | hp
                · rw [hp]
                  exact collect_visuals_ok_nil root rel pd.name _ vs hvs
                · exact ih rest' hrest p hp
          · split at h
            · exact Except.noConfusion h
            · rename_i rest' hrest
              rw [← Except.ok.inj h] at hp
              rcases List.mem_cons.mp hp with hp | hp
              · rw [hp]
              · exact ih rest' hrest p hp

/-- Claim C9 counterexample: `sorted(root.rglob("*.Report"))` orders
reports by full root-relative path, not by directory name.  For the
concrete tree holding `sub0/Z.Report` and `sub1/B.Report`, the walker
emits the reports in the order `[Z.Report, B.Report]` (path order), whose
directory-name sequence is not lexicographically sorted — refuting the
claim's "reports ... emitted in lexicographic order of their directory
names". -/
theorem c9_report_order_counterexample :
    find_report_dirs [fsSub0Z, fsSub1B] = [fsSub0Z, fsSub1B] ∧
    (find_report_dirs [fsSub0Z, fsSub1B]).map (fun e => e.parts.getLastD "") =
      ["Z.Report", "B.Report"] ∧
    ¬ List.Sorted (keyLE (fun s : String => strKey s))
      ((find_report_dirs [fsSub0Z, fsSub1B]).map (fun e => e.parts.getLastD "")) := by
  have hfr : find_report_dirs [fsSub0Z, fsSub1B] = [fsSub0Z, fsSub1B] := rfl
  refine ⟨hfr, rfl, ?_⟩
  rw [hfr]
  intro h
  have h1 := (List.sorted_cons.mp h).1 "B.Report" (by decide)
  exact absurd h1 (by decide)

/-- Claim C9 as amended: the Tree Walker is deterministic and
enumeration-order independent, with reports emitted in lexicographic order
of their full root-relative paths (the order of `sorted(rglob(...))`),
and pages emitted in lexicographic order of their directory names.
(1) `find_report_dirs` yields the same report list for any two enumerations
(with distinct paths) of the file tree; (2) that list is sorted by path;
(3) `collect_pages_for_report` yields identical results — identical
indexes, or identical errors — for any two enumerations of the same report
directory; (4) a successful collection emits exactly the non-skipped page
directories of the lexicographically name-sorted page listing, in that
order, and each emitted page's visuals are in (vacuously) lexicographic
order, the visuals list being empty in every successful run because of the
C1 visual-type bug. -/
theorem c9_walker_determinism :
    (∀ e₁ e₂ : List FsEntry, List.Perm e₁ e₂ →
      (e₁.map (fun e => strKey (joinPath e.parts))).Nodup →
      find_report_dirs e₁ = find_report_dirs e₂) ∧
    (∀ entries : List FsEntry,
      List.Sorted (keyLE (fun e => strKey (joinPath e.parts)))
        (find_report_dirs entries)) ∧
    (∀ rd₁ rd₂ : ReportDir, SameReportTree rd₁ rd₂ →
      collect_pages_for_report rd₁ = collect_pages_for_report rd₂) ∧
    (∀ (rd : ReportDir) (ps : List Page), collect_pages_for_report rd = .ok ps →
      ps.map Page.path = (candidate_page_dirs rd).map
        (fun pd => joinPath (pageJsonRelParts rd.relParts pd.name)) ∧
      List.Sorted (keyLE (fun pd : PageDir => strKey pd.name))
        (candidate_page_dirs rd) ∧
      ∀ p ∈ ps, p.visuals = []) := by
  refine ⟨?_, ?_, ?_, ?_⟩
  · intro e₁ e₂ hp hn
    unfold find_report_dirs
    apply sortByKey_eq_of_perm
    · exact hp.filter _
    · exact List.Nodup.sublist (List.Sublist.map _ (List.filter_sublist e₁)) hn
  · intro entries
    unfold find_report_dirs
    exact sortByKey_sorted _ _
  · rintro rd₁ rd₂ ⟨h1, h2, h3, hp, hn⟩
    unfold collect_pages_for_report
    rw [h1, h2, h3]
    by_cases hpg : rd₂.pagesDirExists = true
    · simp only [hpg, Bool.not_true, Bool.false_eq_true, if_false]
      apply collect_pages_aux_canon
      rw [sortByKey_map_canonPD, sortByKey_map_canonPD]
      apply sortByKey_eq_of_perm _ hp
      have hmm : (rd₁.pageDirs.map canonPD).map (fun pd => strKey pd.name) =
          (rd₁.pageDirs.map PageDir.name).map strKey := by
        rw [List.map_map, List.map_map]; rfl
      rw [hmm]
      exact List.Nodup.map strKey_injective hn
    · have hpg' : rd₂.pagesDirExists = false := by
        revert hpg; cases rd₂.pagesDirExists <;> simp
      simp only [hpg', Bool.not_false, if_true]
  · intro rd ps h
    unfold collect_pages_for_report at h
    by_cases hpg : rd.pagesDirExists = true
    · simp only [hpg, Bool.not_true, Bool.false_eq_true, if_false] at h
      refine ⟨?_, ?_, ?_⟩
      · rw [collect_pages_aux_paths rd.rootParts rd.relParts _ ps h]
        unfold candidate_page_dirs
        simp only [hpg, Bool.not_true, Bool.false_eq_true, if_false]
      · unfold candidate_page_dirs
        simp only [hpg, Bool.not_true, Bool.false_eq_true, if_false]
        exact List.Pairwise.filter _ (sortByKey_sorted _ _)
      · exact collect_pages_aux_visuals_nil _ _ _ ps h
    · have hpg' : rd.pagesDirExists = false := by
        revert hpg; cases rd.pagesDirExists <;> simp
      simp only [hpg', Bool.not_false, if_true] at h
      rw [← Except.ok.inj h]
      refine ⟨?_, ?_, ?_⟩
      · unfold candidate_page_dirs
        simp [hpg']
      · unfold candidate_page_dirs
        simp [hpg']
      · intro p hp
        exact absurd hp (List.not_mem_nil p)

/-- Witness for C9: two concrete enumerations of one report tree (pages
swapped, visuals within a page swapped) index identically; a swapped
`rglob` listing sorts identically; and the single-page report of C2
satisfies the ordering conclusions. -/
theorem c9_walker_determinism_witness :
    collect_pages_for_report rdW1 = collect_pages_for_report rdW2 ∧
    find_report_dirs [fsA, fsB] = find_report_dirs [fsB, fsA] ∧
    ([pageC2].map Page.path = (candidate_page_dirs rdC2).map
      (fun pd => joinPath (pageJsonRelParts rdC2.relParts pd.name)) ∧
      List.Sorted (keyLE (fun pd : PageDir => strKey pd.name))
        (candidate_page_dirs rdC2) ∧
      ∀ p ∈ [pageC2], p.visuals = []) :=
  ⟨c9_walker_determinism.2.2.1 rdW1 rdW2
     ⟨rfl, rfl, rfl, List.Perm.swap _ _ _, by decide⟩,
   c9_walker_determinism.1 [fsA, fsB] [fsB, fsA] (List.Perm.swap _ _ _) (by decide),
   c9_walker_determinism.2.2.2 rdC2 [pageC2] rfl⟩
